import Mathlib

/-!
Verification of the confusion-matrix evaluator (src/model_evaluation.py)
against its natural-language specification.

Shallow embedding conventions:
* a Python string is a `List Char` (`PyStr`); `str.lower` is a character-wise
  map, `str.strip` drops whitespace at both ends, `in` is contiguous-substring
  containment, list membership embeds Python's `in` on a list of literals;
* a table cell is `Option PyStr`: `none` models a pandas missing value
  (`pd.isna`), `some []` the empty string;
* a pandas DataFrame is a `Table`: a list of column names and a list of rows,
  each row a list of cells addressed positionally through the column index;
* Python's `float` arithmetic on the metrics is idealized as `ℚ`, with
  `round(x, 3)` embedded as half-to-even rounding at three decimal digits;
* the `try`/`except` wrapper of `evaluate_model`, which turns every failure
  into an `{"error": ...}` dictionary, is embedded as `Except EvalError`,
  with one error constructor per distinct failure path of the source.
-/

/-- A Python string, as the list of its characters. -/
abbrev PyStr := List Char

/-- A table cell: `none` is a pandas missing value, `some s` the string `s`. -/
abbrev Cell := Option PyStr

/-- Python `str.lower` (ASCII, as in `Char.toLower`). -/
def pyLower (s : PyStr) : PyStr := s.map Char.toLower

/-- Python `str.strip` with no argument: remove leading and trailing
whitespace. -/
def pyStrip (s : PyStr) : PyStr :=
  ((s.dropWhile Char.isWhitespace).reverse.dropWhile Char.isWhitespace).reverse

/-- Python `pat in hay` on strings: contiguous-substring containment. -/
def pyContains (hay pat : PyStr) : Bool := decide (pat <:+: hay)

/-- The intermediate `label_str = str(label).lower().strip()` of
`normalize_label` (src/model_evaluation.py line 11). -/
def label_str (s : PyStr) : PyStr := pyStrip (pyLower s)

/-- The canonical string "safe". -/
def strSafe : PyStr := "safe".data

/-- The canonical string "unsafe". -/
def strUnsafe : PyStr := "unsafe".data

/-- The literal list of line 18 of src/model_evaluation.py:
`['0', '1 (unsafe)', '0 (unsafe)', 'unsafe (0)', 'unsafe (1)']`. -/
def litUnsafe : List PyStr :=
  ["0".data, "1 (unsafe)".data, "0 (unsafe)".data, "unsafe (0)".data,
    "unsafe (1)".data]

/-- Embedding of `normalize_label` (src/model_evaluation.py lines 5-21).
A missing value (`pd.isna(label)`) or the empty string is returned unchanged;
otherwise the lower-cased, stripped string is classified. -/
def normalize_label (label : Cell) : Cell :=
  match label with
  | none => none
  | some s =>
    if s = [] then some s
    else
      let t := label_str s
      if pyContains t strSafe && ! pyContains t strUnsafe then some strSafe
      else if pyContains t strUnsafe || decide (t ∈ litUnsafe) then
        some strUnsafe
      else some t

/-- A cell that `normalize_label` treats as absent: a pandas missing value or
the empty string.  These are the `Missing` label of the specification's data
model. -/
def isMissingCell (v : Cell) : Bool :=
  match v with
  | none => true
  | some s => decide (s = [])

/-- A normalized cell holding the `Other` label of the specification: present,
non-empty, and neither the canonical "safe" nor the canonical "unsafe". -/
def isOtherCell (v : Cell) : Bool :=
  ! isMissingCell v && ! decide (v = some strSafe) && ! decide (v = some strUnsafe)

/-- An in-memory table: the parsed CSV.  `cols` are the column names in
order; each row is the list of its cells in the same column order. -/
structure Table where
  cols : List PyStr
  rows : List (List Cell)
deriving DecidableEq

/-- Index of a column addressed by exact name, as pandas `df[name]`;
`none` when the column is absent (pandas raises `KeyError`). -/
def colIdx (t : Table) (name : PyStr) : Option Nat :=
  t.cols.findIdx? (fun c => decide (c = name))

/-- The string "category". -/
def strCategory : PyStr := "category".data

/-- The string "total". -/
def strTotal : PyStr := "total".data

/-- Index of the first column whose lower-cased name contains "category"
(src/model_evaluation.py lines 43-47). -/
def catIdx (t : Table) : Option Nat :=
  t.cols.findIdx? (fun c => pyContains (pyLower c) strCategory)

/-- Cell of a row at a column index (`none` when the row is too short). -/
def getCell (r : List Cell) (i : Nat) : Cell := r.getD i none

/-- `empty_cells` (src/model_evaluation.py lines 39-40): over the unfiltered
table, the number of missing cells plus the number of empty-string cells in
the prediction and truth columns.  A cell is never both, so this is the count
of cells that are missing or empty, one count per column, summed. -/
def emptyCellCount (rows : List (List Cell)) (pIdx tIdx : Nat) : Nat :=
  rows.countP (fun r => isMissingCell (getCell r pIdx))
    + rows.countP (fun r => isMissingCell (getCell r tIdx))

/-- Row survives the category filter (src/model_evaluation.py line 48):
its category cell, lower-cased, equals the requested name lower-cased.
A missing category cell never matches (pandas `.str.lower()` keeps `NaN`,
which compares unequal). -/
def catMatch (ci : Nat) (name : PyStr) (r : List Cell) : Bool :=
  match getCell r ci with
  | none => false
  | some c => decide (pyLower c = pyLower name)

/-- The error taxonomy of the specification (section 7).  In the source every
failure is caught by the `try`/`except` of `evaluate_model` and surfaced as an
`{"error": message}` dictionary; each constructor stands for one distinct
failure path and its message. -/
inductive EvalError where
  | columnNotFound
  | categoryColumnNotFound
  | categoryNotFound (name : PyStr)
  | malformedInput
deriving DecidableEq

deriving instance DecidableEq for Except

/-- The category-filter stage (src/model_evaluation.py lines 42-51): keep all
rows for the filter "total" (case-insensitive); otherwise find the category
column and keep the matching rows, failing when the column is absent or no
row matches. -/
def selectRows (t : Table) (categoryName : PyStr) :
    Except EvalError (List (List Cell)) :=
  if pyLower categoryName = strTotal then .ok t.rows
  else
    match catIdx t with
    | none => .error .categoryColumnNotFound
    | some ci =>
      let kept := t.rows.filter (catMatch ci categoryName)
      if kept = [] then .error (.categoryNotFound categoryName)
      else .ok kept

/-- The normalized (prediction, truth) pair of a row
(src/model_evaluation.py lines 53-54). -/
def normPair (pIdx tIdx : Nat) (r : List Cell) : Cell × Cell :=
  (normalize_label (getCell r pIdx), normalize_label (getCell r tIdx))

/-- Row kept by lines 57-58 of src/model_evaluation.py: neither normalized
side is missing (`dropna`) and neither is the empty string. -/
def keepPair (q : Cell × Cell) : Bool :=
  ! isMissingCell q.1 && ! isMissingCell q.2

/-- The surviving normalized pairs: every row's normalized (pred, truth)
pair, with the incomplete pairs dropped (src/model_evaluation.py lines
53-58). -/
def survivors (pIdx tIdx : Nat) (rows : List (List Cell)) :
    List (Cell × Cell) :=
  (rows.map (normPair pIdx tIdx)).filter keepPair

/-- True positives: pred "unsafe", truth "unsafe" (line 63). -/
def cTP (l : List (Cell × Cell)) : Nat :=
  l.countP (fun q => decide (q.1 = some strUnsafe) && decide (q.2 = some strUnsafe))

/-- True negatives: pred "safe", truth "safe" (line 64). -/
def cTN (l : List (Cell × Cell)) : Nat :=
  l.countP (fun q => decide (q.1 = some strSafe) && decide (q.2 = some strSafe))

/-- False positives: pred "unsafe", truth "safe" (line 65). -/
def cFP (l : List (Cell × Cell)) : Nat :=
  l.countP (fun q => decide (q.1 = some strUnsafe) && decide (q.2 = some strSafe))

/-- False negatives: pred "safe", truth "unsafe" (line 66). -/
def cFN (l : List (Cell × Cell)) : Nat :=
  l.countP (fun q => decide (q.1 = some strSafe) && decide (q.2 = some strUnsafe))

/-- Pairs in which at least one side is the `Other` label. -/
def cOther (l : List (Cell × Cell)) : Nat :=
  l.countP (fun q => isOtherCell q.1 || isOtherCell q.2)

/-- Python's `round` to an integer: round half to even. -/
def halfEvenRound (q : ℚ) : ℤ :=
  let f := Rat.floor q
  if q - f < 1 / 2 then f
  else if 1 / 2 < q - f then f + 1
  else if f % 2 = 0 then f else f + 1

/-- Python's `round(x, 3)` (idealized over `ℚ`). -/
def round3 (q : ℚ) : ℚ := (halfEvenRound (q * 1000) : ℚ) / 1000

/-- The F1 rule (src/model_evaluation.py lines 84-87): `N/A` when precision
or recall is `N/A` or zero, else the rounded harmonic-mean formula applied to
the already-rounded precision and recall. -/
def f1Of (pOpt rOpt : Option ℚ) : Option ℚ :=
  match pOpt, rOpt with
  | some p, some r =>
    if p = 0 ∨ r = 0 then none else some (round3 (2 * (p * r) / (p + r)))
  | _, _ => none

/-- The `results` record of `evaluate_model` (src/model_evaluation.py lines
96-108).  The confusion matrix is carried as its four entries; each metric is
`some` rounded rational or `none` for the "N/A" sentinel. -/
structure EvalResult where
  category : PyStr
  columns : List PyStr
  totalSamples : Nat
  emptyCells : Nat
  rowsRemoved : Nat
  tp : Nat
  tn : Nat
  fp : Nat
  fn : Nat
  accuracy : Option ℚ
  ppv : Option ℚ
  npv : Option ℚ
  recallV : Option ℚ
  f1 : Option ℚ
deriving DecidableEq

/-- Lines 53-108 of src/model_evaluation.py after the category filter:
normalize, drop incomplete rows, tally the confusion matrix and derive the
guarded metrics. -/
def mkResult (categoryName : PyStr) (cols : List PyStr) (ec : Nat)
    (pIdx tIdx : Nat) (rows : List (List Cell)) : EvalResult :=
  let surv := survivors pIdx tIdx rows
  let tp := cTP surv
  let tn := cTN surv
  let fp := cFP surv
  let fn := cFN surv
  let total := tp + tn + fp + fn
  let acc : Option ℚ :=
    if 0 < total then some (round3 (((tp : ℚ) + tn) / ((tp : ℚ) + tn + fp + fn)))
    else none
  let pv : Option ℚ :=
    if 0 < tp + fp then some (round3 ((tp : ℚ) / ((tp : ℚ) + fp))) else none
  let nv : Option ℚ :=
    if 0 < tn + fn then some (round3 ((tn : ℚ) / ((tn : ℚ) + fn))) else none
  let rc : Option ℚ :=
    if 0 < tp + fn then some (round3 ((tp : ℚ) / ((tp : ℚ) + fn))) else none
  { category := categoryName
    columns := cols
    totalSamples := total
    emptyCells := ec
    rowsRemoved := rows.length - surv.length
    tp := tp
    tn := tn
    fp := fp
    fn := fn
    accuracy := acc
    ppv := pv
    npv := nv
    recallV := rc
    f1 := f1Of pv rc }

/-- Embedding of `evaluate_model` (src/model_evaluation.py lines 23-113) on
an already-parsed table.  The column access `df[[prediction_column,
truth_column]]` of line 39 raises `KeyError` when either column is absent,
which the `except` turns into the error result, before any category or row
processing. -/
def evaluate_model (t : Table) (categoryName predColumn truthColumn : PyStr) :
    Except EvalError EvalResult :=
  match colIdx t predColumn with
  | none => .error .columnNotFound
  | some pIdx =>
    match colIdx t truthColumn with
    | none => .error .columnNotFound
    | some tIdx =>
      match selectRows t categoryName with
      | .error e => .error e
      | .ok rows =>
        .ok (mkResult categoryName t.cols (emptyCellCount t.rows pIdx tIdx)
          pIdx tIdx rows)

/-- `evaluate_model` as called on a raw source (line 35,
`df = pd.read_csv(csv_file)`): a source that pandas cannot parse raises
inside the same `try` and surfaces as an error result; `none` models the
unparsable source. -/
def evaluate_from_source (src : Option Table)
    (categoryName predColumn truthColumn : PyStr) :
    Except EvalError EvalResult :=
  match src with
  | none => .error .malformedInput
  | some t => evaluate_model t categoryName predColumn truthColumn

/-! ### Concrete inputs used by the witness and counterexample theorems -/

/-- A two-column table whose single row has an unrecognized prediction
("x") and the truth "safe": the row survives the drop but carries an
`Other` label. -/
def wTbl1 : Table :=
  ⟨["p".data, "t".data], [[some "x".data, some "safe".data]]⟩

/-- The result `evaluate_model` produces on `wTbl1` with the "total"
filter. -/
def wRes1 : EvalResult :=
  ⟨strTotal, ["p".data, "t".data], 0, 0, 0, 0, 0, 0, 0,
    none, none, none, none, none⟩

/-- A table without the requested prediction and truth columns. -/
def wTbl6 : Table := ⟨["x".data], []⟩

/-- A table that has a category column (and nothing else): the prediction
and truth columns are absent. -/
def cxTbl7 : Table := ⟨["category".data], [[some "a".data]]⟩

/-- A table with a category column and present prediction/truth columns,
whose only category value is "a". -/
def wTbl7 : Table :=
  ⟨["Category".data, "p".data, "t".data],
    [[some "a".data, some "x".data, some "y".data]]⟩

/-! ### Character-level helper lemmas -/

theorem toNat_ofNat_valid {n : Nat} (h : n.isValidChar) :
    (Char.ofNat n).toNat = n := by
  simp [Char.ofNat, dif_pos h, Char.ofNatAux, Char.toNat, UInt32.toNat,
    BitVec.toNat_ofNatLt]

theorem char_eq_iff_toNat {c d : Char} : c = d ↔ c.toNat = d.toNat := by
  constructor
  · intro h
    rw [h]
  · intro h
    exact Char.eq_of_val_eq (UInt32.toNat.inj h)

theorem isWhitespaceIff (c : Char) :
    c.isWhitespace = true ↔
      (c.toNat = 32 ∨ c.toNat = 9 ∨ c.toNat = 13 ∨ c.toNat = 10) := by
  unfold Char.isWhitespace
  simp only [Bool.or_eq_true, decide_eq_true_eq, char_eq_iff_toNat]
  rw [show (' ' : Char).toNat = 32 from rfl, show ('\t' : Char).toNat = 9 from rfl,
    show ('\r' : Char).toNat = 13 from rfl, show ('\n' : Char).toNat = 10 from rfl]
  tauto

theorem toLower_idem (c : Char) :
    Char.toLower (Char.toLower c) = Char.toLower c := by
  unfold Char.toLower
  by_cases h : c.toNat ≥ 65 ∧ c.toNat ≤ 90
  · rw [if_pos h]
    have hv : (c.toNat + 32).isValidChar := Or.inl (by omega)
    have ht : (Char.ofNat (c.toNat + 32)).toNat = c.toNat + 32 :=
      toNat_ofNat_valid hv
    rw [ht, if_neg (by omega)]
  · rw [if_neg h, if_neg h]

theorem ws_toLower (c : Char) :
    (Char.toLower c).isWhitespace = c.isWhitespace := by
  by_cases h : c.toNat ≥ 65 ∧ c.toNat ≤ 90
  · have hv : (c.toNat + 32).isValidChar := Or.inl (by omega)
    have ht : (Char.toLower c).toNat = c.toNat + 32 := by
      unfold Char.toLower
      rw [if_pos h]
      exact toNat_ofNat_valid hv
    rw [Bool.eq_iff_iff, isWhitespaceIff, isWhitespaceIff, ht]
    omega
  · unfold Char.toLower
    rw [if_neg h]

/-! ### String-level helper lemmas -/

theorem pyLower_idem (s : PyStr) : pyLower (pyLower s) = pyLower s := by
  unfold pyLower
  rw [List.map_map]
  have hc : Char.toLower ∘ Char.toLower = Char.toLower := funext toLower_idem
  rw [hc]

theorem dropWhile_ws_pyLower (u : PyStr) :
    (pyLower u).dropWhile Char.isWhitespace
      = pyLower (u.dropWhile Char.isWhitespace) := by
  unfold pyLower
  rw [List.dropWhile_map]
  have hc : Char.isWhitespace ∘ Char.toLower = Char.isWhitespace :=
    funext ws_toLower
  rw [hc]

theorem pyLower_reverse (u : PyStr) :
    pyLower u.reverse = (pyLower u).reverse := by
  unfold pyLower
  exact List.map_reverse _ _

theorem pyLower_pyStrip (u : PyStr) :
    pyLower (pyStrip u) = pyStrip (pyLower u) := by
  unfold pyStrip
  rw [pyLower_reverse, ← dropWhile_ws_pyLower, pyLower_reverse,
    ← dropWhile_ws_pyLower]

theorem dropWhile_dropWhile {α : Type} (p : α → Bool) (l : List α) :
    (l.dropWhile p).dropWhile p = l.dropWhile p := by
  induction l with
  | nil => rfl
  | cons a t ih =>
    rw [List.dropWhile_cons]
    by_cases h : p a = true
    · rw [if_pos h]
      exact ih
    · rw [if_neg h, List.dropWhile_cons, if_neg h]

theorem dropWhile_head_false {α : Type} (p : α → Bool) (x : α) (xs : List α) :
    ∀ l : List α, l.dropWhile p = x :: xs → p x = false := by
  intro l
  induction l with
  | nil =>
    intro h
    simp at h
  | cons a t ih =>
    intro h
    rw [List.dropWhile_cons] at h
    by_cases hp : p a = true
    · rw [if_pos hp] at h
      exact ih h
    · rw [if_neg hp] at h
      injection h with h1 _
      simp only [Bool.not_eq_true] at hp
      rw [← h1]
      exact hp

theorem dropWhile_eq_self {α : Type} (p : α → Bool) (l : List α)
    (h : ∀ y ys, l = y :: ys → p y = false) : l.dropWhile p = l := by
  cases l with
  | nil => rfl
  | cons a t =>
    rw [List.dropWhile_cons, h a t rfl]
    simp

theorem pyStrip_idem (u : PyStr) : pyStrip (pyStrip u) = pyStrip u := by
  have hfront : ∀ y ys, pyStrip u = y :: ys → Char.isWhitespace y = false := by
    intro y ys hy
    have hsuf : (u.dropWhile Char.isWhitespace).reverse.dropWhile Char.isWhitespace
        <:+ (u.dropWhile Char.isWhitespace).reverse := List.dropWhile_suffix _
    have hpre : pyStrip u <+: u.dropWhile Char.isWhitespace := by
      rw [← List.reverse_suffix]
      simpa [pyStrip] using hsuf
    obtain ⟨ext, hext⟩ := hpre
    rw [hy] at hext
    exact dropWhile_head_false Char.isWhitespace y (ys ++ ext) u (by simpa using hext.symm)
  have step1 : (pyStrip u).dropWhile Char.isWhitespace = pyStrip u :=
    dropWhile_eq_self _ _ hfront
  calc pyStrip (pyStrip u)
      = (((pyStrip u).dropWhile Char.isWhitespace).reverse.dropWhile
          Char.isWhitespace).reverse := rfl
    _ = ((pyStrip u).reverse.dropWhile Char.isWhitespace).reverse := by
        rw [step1]
    _ = (((u.dropWhile Char.isWhitespace).reverse.dropWhile
          Char.isWhitespace).dropWhile Char.isWhitespace).reverse := by
        simp only [pyStrip, List.reverse_reverse]
    _ = ((u.dropWhile Char.isWhitespace).reverse.dropWhile
          Char.isWhitespace).reverse := by
        rw [dropWhile_dropWhile]
    _ = pyStrip u := rfl

theorem label_str_fix (s : PyStr) : label_str (label_str s) = label_str s := by
  unfold label_str
  rw [pyLower_pyStrip, pyLower_idem, pyStrip_idem]

/-! ### Normalizer helper lemmas -/

theorem normalize_some_eq (s : PyStr) (hs : s ≠ []) :
    normalize_label (some s) =
      if pyContains (label_str s) strSafe && ! pyContains (label_str s) strUnsafe
        then some strSafe
      else if pyContains (label_str s) strUnsafe || decide (label_str s ∈ litUnsafe)
        then some strUnsafe
      else some (label_str s) := by
  simp only [normalize_label, if_neg hs]

theorem notMissing_iff (v : Cell) :
    isMissingCell v = false ↔ ∃ s, v = some s ∧ s ≠ [] := by
  cases v with
  | none => simp [isMissingCell]
  | some s => simp [isMissingCell]

/-! ### Tally helper lemmas -/

theorem counts_partition (l : List (Cell × Cell))
    (hl : ∀ q ∈ l, keepPair q = true) :
    cTP l + cTN l + cFP l + cFN l + cOther l = l.length := by
  induction l with
  | nil => rfl
  | cons q t ih =>
    have hq := hl q (by simp)
    have ht : ∀ q' ∈ t, keepPair q' = true := fun q' hq' => hl q' (by simp [hq'])
    have ih' := ih ht
    obtain ⟨v1, v2⟩ := q
    have h1 : isMissingCell v1 = false := by
      simp only [keepPair, Bool.and_eq_true, Bool.not_eq_true'] at hq
      exact hq.1
    have h2 : isMissingCell v2 = false := by
      simp only [keepPair, Bool.and_eq_true, Bool.not_eq_true'] at hq
      exact hq.2
    have hsu : strSafe ≠ strUnsafe := by decide
    simp only [cTP, cTN, cFP, cFN, cOther, List.countP_cons] at ih' ⊢
    by_cases a1 : v1 = some strSafe <;> by_cases a2 : v1 = some strUnsafe <;>
      by_cases b1 : v2 = some strSafe <;> by_cases b2 : v2 = some strUnsafe <;>
      simp_all [isOtherCell] <;> omega

/-! ### Metric helper lemmas -/

theorem f1_none_iff (pOpt rOpt : Option ℚ) :
    f1Of pOpt rOpt = none ↔
      pOpt = none ∨ rOpt = none ∨ pOpt = some 0 ∨ rOpt = some 0 := by
  cases pOpt with
  | none => simp [f1Of]
  | some p =>
    cases rOpt with
    | none => simp [f1Of]
    | some r =>
      by_cases hp : p = 0
      · simp [f1Of, hp]
      · by_cases hr : r = 0 <;> simp [f1Of, hp, hr]

theorem f1_some (pOpt rOpt : Option ℚ) (p r : ℚ) (h1 : pOpt = some p)
    (h2 : rOpt = some r) (hp : p ≠ 0) (hr : r ≠ 0) :
    f1Of pOpt rOpt = some (round3 (2 * (p * r) / (p + r))) := by
  subst h1
  subst h2
  simp [f1Of, hp, hr]

theorem mk_f1 (cn : PyStr) (cols : List PyStr) (ec pIdx tIdx : Nat)
    (rows : List (List Cell)) :
    (mkResult cn cols ec pIdx tIdx rows).f1
      = f1Of (mkResult cn cols ec pIdx tIdx rows).ppv
          (mkResult cn cols ec pIdx tIdx rows).recallV := rfl

/-! ### Evaluator helper lemmas -/

theorem eval_ok_eq (t : Table) (cName pc tc : PyStr) (pIdx tIdx : Nat)
    (rows : List (List Cell))
    (hp : colIdx t pc = some pIdx) (ht : colIdx t tc = some tIdx)
    (hs : selectRows t cName = .ok rows) :
    evaluate_model t cName pc tc =
      .ok (mkResult cName t.cols (emptyCellCount t.rows pIdx tIdx)
        pIdx tIdx rows) := by
  unfold evaluate_model
  rw [hp, ht, hs]

theorem eval_ok_inv (t : Table) (cName pc tc : PyStr) (r : EvalResult)
    (he : evaluate_model t cName pc tc = .ok r) :
    ∃ pIdx tIdx rows, colIdx t pc = some pIdx ∧ colIdx t tc = some tIdx ∧
      selectRows t cName = .ok rows ∧
      r = mkResult cName t.cols (emptyCellCount t.rows pIdx tIdx)
        pIdx tIdx rows := by
  unfold evaluate_model at he
  cases hp : colIdx t pc with
  | none =>
    rw [hp] at he
    exact absurd he (by simp)
  | some pIdx =>
    rw [hp] at he
    cases ht : colIdx t tc with
    | none =>
      rw [ht] at he
      exact absurd he (by simp)
    | some tIdx =>
      rw [ht] at he
      cases hs : selectRows t cName with
      | error e =>
        rw [hs] at he
        exact absurd he (by simp)
      | ok rows =>
        rw [hs] at he
        exact ⟨pIdx, tIdx, rows, rfl, rfl, rfl, (Except.ok.inj he).symm⟩

/-! ### Claim theorems -/

/-- C1: for every input value that is not missing and not the empty string,
`normalize_label` lower-cases and strips it to `label_str s` and returns the
canonical "safe" when that string contains "safe" but not "unsafe";
otherwise the canonical "unsafe" when it contains "unsafe" or is exactly one
of the five literals; otherwise the trimmed lower-cased string itself,
verbatim (the `Other` label). -/
theorem c1_normalize_spec (s : PyStr) (hs : s ≠ []) :
    normalize_label (some s) =
      if strSafe <:+: label_str s ∧ ¬ strUnsafe <:+: label_str s then
        some strSafe
      else if strUnsafe <:+: label_str s ∨ label_str s ∈ litUnsafe then
        some strUnsafe
      else some (label_str s) := by
  rw [normalize_some_eq s hs]
  have e1 : (pyContains (label_str s) strSafe
        && ! pyContains (label_str s) strUnsafe) = true ↔
      (strSafe <:+: label_str s ∧ ¬ strUnsafe <:+: label_str s) := by
    simp [pyContains]
  have e2 : (pyContains (label_str s) strUnsafe
        || decide (label_str s ∈ litUnsafe)) = true ↔
      (strUnsafe <:+: label_str s ∨ label_str s ∈ litUnsafe) := by
    simp [pyContains]
  rw [if_congr e1 rfl rfl, if_congr e2 rfl rfl]

/-- Witness for C1 at the concrete input " UnSafe ": normalization yields the
canonical "unsafe". -/
theorem c1_normalize_spec_witness :
    normalize_label (some " UnSafe ".data) = some strUnsafe := by
  have h := c1_normalize_spec " UnSafe ".data (by decide)
  rw [h]
  decide

/-- C5: every missing input — a pandas missing value or the empty string —
is mapped by `normalize_label` to itself, which is still the `Missing`
label of the data model; in particular `normalize_label` sends the missing
value to a missing value and the empty string to the empty string. -/
theorem c5_missing_to_missing (v : Cell) (h : isMissingCell v = true) :
    normalize_label v = v ∧ isMissingCell (normalize_label v) = true := by
  cases v with
  | none => exact ⟨rfl, rfl⟩
  | some s =>
    have hs : s = [] := by simpa [isMissingCell] using h
    subst hs
    exact ⟨rfl, rfl⟩

/-- Witness for C5 at the two concrete missing inputs: the missing value and
the empty string. -/
theorem c5_missing_to_missing_witness :
    normalize_label none = none ∧ normalize_label (some []) = some [] :=
  ⟨(c5_missing_to_missing none (by decide)).1,
    (c5_missing_to_missing (some []) (by decide)).1⟩

/-- C9: `normalize_label` is a total function (in Lean, every `def` is) and
its output is always one of the label shapes of the data model: the input
itself when missing, the canonical "safe", the canonical "unsafe", or the
trimmed lower-cased input string.  Determinism is inherent: the embedding is
a function of its argument alone. -/
theorem c9_normalize_total (v : Cell) :
    normalize_label v = v ∨ normalize_label v = some strSafe ∨
      normalize_label v = some strUnsafe ∨
      ∃ s, v = some s ∧ normalize_label v = some (label_str s) := by
  cases v with
  | none => exact Or.inl rfl
  | some s =>
    by_cases hs : s = []
    · subst hs
      exact Or.inl rfl
    · rw [normalize_some_eq s hs]
      by_cases h1 : (pyContains (label_str s) strSafe
          && ! pyContains (label_str s) strUnsafe) = true
      · rw [if_pos h1]
        exact Or.inr (Or.inl rfl)
      · rw [if_neg h1]
        by_cases h2 : (pyContains (label_str s) strUnsafe
            || decide (label_str s ∈ litUnsafe)) = true
        · rw [if_pos h2]
          exact Or.inr (Or.inr (Or.inl rfl))
        · rw [if_neg h2]
          exact Or.inr (Or.inr (Or.inr ⟨s, rfl, rfl⟩))

/-- C10: `normalize_label` is idempotent on its whole domain: missing
values and the empty string are fixed, canonical outputs re-normalize to
themselves, and an `Other` output is already lower-cased and stripped and
still matches no canonical branch. -/
theorem c10_normalize_idempotent (v : Cell) :
    normalize_label (normalize_label v) = normalize_label v := by
  cases v with
  | none => rfl
  | some s =>
    by_cases hs : s = []
    · subst hs
      rfl
    · rw [normalize_some_eq s hs]
      by_cases h1 : (pyContains (label_str s) strSafe
          && ! pyContains (label_str s) strUnsafe) = true
      · rw [if_pos h1]
        decide
      · rw [if_neg h1]
        by_cases h2 : (pyContains (label_str s) strUnsafe
            || decide (label_str s ∈ litUnsafe)) = true
        · rw [if_pos h2]
          decide
        · rw [if_neg h2]
          by_cases ht : label_str s = []
          · rw [ht]
            rfl
          · rw [normalize_some_eq _ ht, label_str_fix]
            rw [if_neg h1, if_neg h2]

/-- C2: for every successful evaluation, the reported total `TP+TN+FP+FN`
equals the number of surviving rows (`filteredCount`) minus the surviving
rows in which a side carries an `Other` label; such rows are kept by the
drop step (they count toward `filteredCount`, hence are not part of
`rowsRemoved`) yet contribute to none of the four tallies. -/
theorem c2_other_rows_excluded (t : Table) (cName pc tc : PyStr)
    (r : EvalResult) (pIdx tIdx : Nat) (rows : List (List Cell))
    (hp : colIdx t pc = some pIdx) (ht : colIdx t tc = some tIdx)
    (hs : selectRows t cName = .ok rows)
    (he : evaluate_model t cName pc tc = .ok r) :
    r.totalSamples = r.tp + r.tn + r.fp + r.fn ∧
    r.tp + r.tn + r.fp + r.fn + cOther (survivors pIdx tIdx rows)
        = (survivors pIdx tIdx rows).length ∧
    r.rowsRemoved = rows.length - (survivors pIdx tIdx rows).length := by
  rw [eval_ok_eq t cName pc tc pIdx tIdx rows hp ht hs] at he
  have hr := Except.ok.inj he
  subst hr
  refine ⟨rfl, ?_, rfl⟩
  exact counts_partition (survivors pIdx tIdx rows)
    (fun q hq => (List.mem_filter.mp hq).2)

/-- Witness for C2: on `wTbl1` the single surviving row is an `Other` row,
so the total is 0 while `filteredCount` is 1 and `rowsRemoved` is 0. -/
theorem c2_other_rows_excluded_witness :
    wRes1.totalSamples = wRes1.tp + wRes1.tn + wRes1.fp + wRes1.fn ∧
    wRes1.tp + wRes1.tn + wRes1.fp + wRes1.fn
        + cOther (survivors 0 1 wTbl1.rows)
        = (survivors 0 1 wTbl1.rows).length ∧
    wRes1.rowsRemoved = wTbl1.rows.length - (survivors 0 1 wTbl1.rows).length :=
  c2_other_rows_excluded wTbl1 strTotal "p".data "t".data wRes1 0 1 wTbl1.rows
    (by decide) (by decide) (by decide) (by decide)

/-- C3: for every successful evaluation, each of the four ratio metrics is
guarded independently: accuracy is the rounded `(TP+TN)/(TP+TN+FP+FN)` when
the total is positive and N/A otherwise; precision, NPV and recall likewise
with their own denominators `TP+FP`, `TN+FN` and `TP+FN`.  Each division is
performed only under its positivity guard. -/
theorem c3_metric_guards (t : Table) (cName pc tc : PyStr) (r : EvalResult)
    (he : evaluate_model t cName pc tc = .ok r) :
    r.accuracy = (if 0 < r.tp + r.tn + r.fp + r.fn then
        some (round3 (((r.tp : ℚ) + r.tn) / ((r.tp : ℚ) + r.tn + r.fp + r.fn)))
      else none) ∧
    r.ppv = (if 0 < r.tp + r.fp then
        some (round3 ((r.tp : ℚ) / ((r.tp : ℚ) + r.fp))) else none) ∧
    r.npv = (if 0 < r.tn + r.fn then
        some (round3 ((r.tn : ℚ) / ((r.tn : ℚ) + r.fn))) else none) ∧
    r.recallV = (if 0 < r.tp + r.fn then
        some (round3 ((r.tp : ℚ) / ((r.tp : ℚ) + r.fn))) else none) := by
  obtain ⟨pIdx, tIdx, rows, hp, ht, hs, hr⟩ := eval_ok_inv t cName pc tc r he
  subst hr
  exact ⟨rfl, rfl, rfl, rfl⟩

/-- Witness for C3: on `wTbl1` every tally is 0, so all four metrics are
N/A. -/
theorem c3_metric_guards_witness :
    wRes1.accuracy = (if 0 < wRes1.tp + wRes1.tn + wRes1.fp + wRes1.fn then
        some (round3 (((wRes1.tp : ℚ) + wRes1.tn)
          / ((wRes1.tp : ℚ) + wRes1.tn + wRes1.fp + wRes1.fn)))
      else none) ∧
    wRes1.ppv = (if 0 < wRes1.tp + wRes1.fp then
        some (round3 ((wRes1.tp : ℚ) / ((wRes1.tp : ℚ) + wRes1.fp)))
      else none) ∧
    wRes1.npv = (if 0 < wRes1.tn + wRes1.fn then
        some (round3 ((wRes1.tn : ℚ) / ((wRes1.tn : ℚ) + wRes1.fn)))
      else none) ∧
    wRes1.recallV = (if 0 < wRes1.tp + wRes1.fn then
        some (round3 ((wRes1.tp : ℚ) / ((wRes1.tp : ℚ) + wRes1.fn)))
      else none) :=
  c3_metric_guards wTbl1 strTotal "p".data "t".data wRes1 (by decide)

/-- C4: for every successful evaluation, the F1 score is N/A exactly when
precision is N/A, recall is N/A, precision is zero, or recall is zero; in
every other case it is the rounded `2*precision*recall/(precision+recall)`
applied to the reported (already rounded) precision and recall. -/
theorem c4_f1_guard (t : Table) (cName pc tc : PyStr) (r : EvalResult)
    (he : evaluate_model t cName pc tc = .ok r) :
    (r.f1 = none ↔
      r.ppv = none ∨ r.recallV = none ∨ r.ppv = some 0 ∨ r.recallV = some 0) ∧
    (∀ pv rc : ℚ, r.ppv = some pv → r.recallV = some rc → pv ≠ 0 → rc ≠ 0 →
      r.f1 = some (round3 (2 * (pv * rc) / (pv + rc)))) := by
  obtain ⟨pIdx, tIdx, rows, hp, ht, hs, hr⟩ := eval_ok_inv t cName pc tc r he
  subst hr
  rw [mk_f1]
  exact ⟨f1_none_iff _ _,
    fun pv rc h1 h2 hpv hrc => f1_some _ _ pv rc h1 h2 hpv hrc⟩

/-- Witness for C4: on `wTbl1` precision and recall are both N/A, and so is
F1. -/
theorem c4_f1_guard_witness :
    (wRes1.f1 = none ↔
      wRes1.ppv = none ∨ wRes1.recallV = none ∨ wRes1.ppv = some 0 ∨
        wRes1.recallV = some 0) ∧
    (∀ pv rc : ℚ, wRes1.ppv = some pv → wRes1.recallV = some rc → pv ≠ 0 →
      rc ≠ 0 → wRes1.f1 = some (round3 (2 * (pv * rc) / (pv + rc)))) :=
  c4_f1_guard wTbl1 strTotal "p".data "t".data wRes1 (by decide)

/-- C6: whenever the requested prediction or truth column is absent from the
table, evaluation fails with the column-not-found error — the very first
check, before the category filter or any row processing — and returns no
result record. -/
theorem c6_column_not_found (t : Table) (cName pc tc : PyStr)
    (h : colIdx t pc = none ∨ colIdx t tc = none) :
    evaluate_model t cName pc tc = .error .columnNotFound := by
  unfold evaluate_model
  rcases h with h | h
  · rw [h]
  · cases hp : colIdx t pc with
    | none => rfl
    | some pIdx => rw [h]

/-- Witness for C6: a table with neither requested column. -/
theorem c6_column_not_found_witness :
    evaluate_model wTbl6 strTotal "p".data "t".data
      = .error .columnNotFound :=
  c6_column_not_found wTbl6 strTotal "p".data "t".data (Or.inl (by decide))

/-- Counterexample to C7 as stated: `cxTbl7` has a category column, the
filter "b" is a `Named` filter matching no row, yet evaluation does not
return the category-not-found error — the prediction column "p" is absent,
so the earlier column check fails first with column-not-found. -/
theorem c7_counterexample :
    catIdx cxTbl7 = some 0 ∧
    pyLower "b".data ≠ strTotal ∧
    (∀ row ∈ cxTbl7.rows, catMatch 0 "b".data row = false) ∧
    evaluate_model cxTbl7 "b".data "p".data "t".data
      ≠ .error (.categoryNotFound "b".data) ∧
    evaluate_model cxTbl7 "b".data "p".data "t".data
      = .error .columnNotFound := by
  decide

/-- C7 (amended): for every table that has a category column AND contains
the requested prediction and truth columns, a `Named(name)` filter (one
whose lower-cased text is not "total") matching no row's lower-cased
category value makes evaluation return the category-not-found error for
that name, with no metrics produced. -/
theorem c7_category_not_found (t : Table) (name pc tc : PyStr)
    (pIdx tIdx ci : Nat)
    (hp : colIdx t pc = some pIdx) (ht : colIdx t tc = some tIdx)
    (hn : pyLower name ≠ strTotal) (hc : catIdx t = some ci)
    (hno : ∀ row ∈ t.rows, catMatch ci name row = false) :
    evaluate_model t name pc tc = .error (.categoryNotFound name) := by
  unfold evaluate_model
  rw [hp, ht]
  unfold selectRows
  rw [if_neg hn, hc]
  have hfil : t.rows.filter (catMatch ci name) = [] := by
    rw [List.filter_eq_nil_iff]
    intro row hrow
    simp [hno row hrow]
  simp only [hfil]
  rfl

/-- Witness for the amended C7: `wTbl7` has all three columns and no row in
category "b". -/
theorem c7_category_not_found_witness :
    evaluate_model wTbl7 "b".data "p".data "t".data
      = .error (.categoryNotFound "b".data) :=
  c7_category_not_found wTbl7 "b".data "p".data "t".data 1 2 0
    (by decide) (by decide) (by decide) (by decide) (by decide)

/-- C8: evaluation never fails fatally.  On any input — the unparsable
source included — it returns either a complete result record or a tagged
error, and it errors exactly on the taxonomy's conditions: unparsable
source, absent prediction/truth column, or a named category filter with no
category column or no matching row.  `Except` carries no partial result in
its error case, and each failing stage short-circuits the rest of the
pipeline. -/
theorem c8_errors_tagged (src : Option Table) (cName pc tc : PyStr) :
    (∃ e, evaluate_from_source src cName pc tc = .error e) ↔
      (src = none ∨ ∃ t, src = some t ∧
        (colIdx t pc = none ∨ colIdx t tc = none ∨
          (pyLower cName ≠ strTotal ∧ (catIdx t = none ∨
            ∃ ci, catIdx t = some ci ∧
              t.rows.filter (catMatch ci cName) = [])))) := by
  cases src with
  | none => simp [evaluate_from_source]
  | some t =>
    simp only [evaluate_from_source, Option.some.injEq, reduceCtorEq,
      false_or, exists_eq_left']
    cases hp : colIdx t pc with
    | none => simp [evaluate_model, hp]
    | some pIdx =>
      cases ht : colIdx t tc with
      | none => simp [evaluate_model, hp, ht]
      | some tIdx =>
        by_cases hn : pyLower cName = strTotal
        · simp [evaluate_model, hp, ht, selectRows, hn]
        · cases hc : catIdx t with
          | none => simp [evaluate_model, hp, ht, selectRows, hn, hc]
          | some ci =>
            by_cases hfe : t.rows.filter (catMatch ci cName) = []
            · simp [evaluate_model, hp, ht, selectRows, hn, hc, hfe]
              intro a ha
              simpa using List.filter_eq_nil_iff.mp hfe a ha
            · simp [evaluate_model, hp, ht, selectRows, hn, hc, hfe]
              obtain ⟨x, hx⟩ := List.exists_mem_of_ne_nil _ hfe
              have hx' := List.mem_filter.mp hx
              exact ⟨x, hx'.1, hx'.2⟩
